import Mathlib

/-!
Verification of the rs-ovpnfile OpenVPN configuration file parser.

The development shallowly embeds the two source files of the crate:

* `src/config_directive.rs` — the macro-generated directive registry and the
  `parse_line` dispatcher.  The `define_config_directives!` macro expands one
  declarative row per command into (a) an enum variant of `ConfigDirective`
  and (b) a match arm of `parse_line`.  We embed the declarative row list as
  the table `directiveTable` and the per-shape macro rules as the generic
  dispatcher `dispatch_entry`; a `ConfigDirective` value is represented by
  its variant name (the row's rust_name) together with its positional
  required/optional field values, so that equality is structural exactly as
  with the derived `PartialEq` of the Rust enum.

* `src/lib.rs` — the line classifier, the inline-file block accumulator and
  the `parse` driver.  Rust strings are Lean `String`s; the character-level
  operations (`trim`, `split_whitespace`, the `#.*$` comment regex and the
  `^<(\S+)>` / `^</(\S+)>` marker regexes) are implemented over `String.data`
  character lists.  The driver runs over the list of input lines (what
  `BufRead::lines` yields); a returned `none` models a Rust panic
  (`command_and_args[0]` on an empty slice, or the `unreachable!()` arm of
  `to_config_line`) — the totality theorem shows it never happens.
-/

set_option maxHeartbeats 1000000
set_option maxRecDepth 100000

namespace Ovpn

/-- `File` from src/config_directive.rs. -/
inductive File : Type
  | FilePath (path : String)
  | InlineFileContents (contents : String)
  deriving DecidableEq

/-- `ServerBridgeArg` from src/config_directive.rs. -/
inductive ServerBridgeArg : Type
  | NoGateway
  | GatewayConfig (gateway netmask pool_start_ip pool_end_ip : String)
  deriving DecidableEq

/-- One value of the Rust `ConfigDirective` enum.  Each macro-generated
variant is identified by its `rust_name` and carries its field values
positionally: required `String` fields, then optional `Option String`
fields (for the fixed-arity rule), a `Vec<String>` (varargs rule), an
`Option<Vec<String>>` (optional-varargs rule), or a `File` plus optional
fields (inline-file rules).  `ServerBridge` is the irregular variant added
by the macro's termination rule. -/
inductive ConfigDirective : Type
  | fixedArgs (rust_name : String) (args : List String)
      (optional_args : List (Option String))
  | varargs (rust_name : String) (values : List String)
  | optionalVarargs (rust_name : String) (values : Option (List String))
  | inlineFile (rust_name : String) (file : File)
      (optional_args : List (Option String))
  | ServerBridge (arg : ServerBridgeArg)
  deriving DecidableEq

/-- `LineParseResult` from src/config_directive.rs. -/
inductive LineParseResult : Type
  | NoMatchingCommand
  | NotEnoughArguments
  | Success (directive : ConfigDirective)
  deriving DecidableEq

/-- The argument shape of one row of the `define_config_directives!`
invocation: which macro rule the row is dispatched to. -/
inductive ArgShape : Type
  | fixed (args : List String) (optional_args : List String)
  | varargs (name : String)
  | optionalVarargs (name : String)
  | inlineFile (optional_args : List String)
  deriving DecidableEq

/-- The rust_name and argument shape of one registered command. -/
structure DirectiveSpec : Type where
  rust_name : String
  shape : ArgShape
  deriving DecidableEq

/-- The declarative command list passed to `define_config_directives!`
(src/config_directive.rs lines 270-536), one entry per row, in source
order.  Note line 285 of the source registers the command string
"http-proxy-user-type" for the variant `HttpProxyUserPass`. -/
def directiveTableChunk1 : List (String × DirectiveSpec) := [
  ("help", ⟨"Help", .fixed [] []⟩),
  ("config", ⟨"Config", .fixed ["file"] []⟩),
  ("mode", ⟨"Mode", .fixed ["m"] []⟩),
  ("local", ⟨"Local", .fixed ["host"] []⟩),
  ("remote", ⟨"Remote", .fixed ["host"] ["port", "proto"]⟩),
  ("remote-random-hostname", ⟨"RemoteRandomHostname", .fixed [] []⟩),
  ("proto-force", ⟨"ProtoForce", .fixed ["p"] []⟩),
  ("remote-random", ⟨"RemoteRandom", .fixed [] []⟩),
  ("proto", ⟨"Proto", .fixed ["p"] []⟩),
  ("connect-retry", ⟨"ConnectRetry", .fixed ["n"] ["max"]⟩),
  ("connect-retry-max", ⟨"ConnectRetryMax", .fixed ["n"] []⟩),
  ("show-proxy-settings", ⟨"ShowProxySettings", .fixed [] []⟩),
  ("http-proxy", ⟨"HttpProxy", .fixed ["server", "port"] ["authfile_or_auto_or_auto_nct", "auth_method"]⟩),
  ("http-proxy-option", ⟨"HttpProxyOption", .fixed ["http_proxy_option_type"] ["parm"]⟩),
  ("http-proxy-user-type", ⟨"HttpProxyUserPass", .inlineFile []⟩),
  ("socks-proxy", ⟨"SocksProxy", .fixed ["server"] ["port", "authfile"]⟩),
  ("resolv-retry", ⟨"ResolvRetry", .fixed ["n"] []⟩),
  ("float", ⟨"Float", .fixed [] []⟩),
  ("ipchange", ⟨"Ipchange", .fixed ["cmd"] []⟩),
  ("port", ⟨"Port", .fixed ["port"] []⟩),
  ("lport", ⟨"Lport", .fixed ["port"] []⟩),
  ("rport", ⟨"Rport", .fixed ["port"] []⟩),
  ("bind", ⟨"Bind", .fixed [] ["ipv6only"]⟩),
  ("nobind", ⟨"Nobind", .fixed [] []⟩),
  ("dev", ⟨"Dev", .fixed ["devarg"] []⟩),
  ("dev-type", ⟨"DevType", .fixed ["device_type"] []⟩),
  ("topology", ⟨"Topology", .fixed ["mode"] []⟩),
  ("dev-node", ⟨"DevNode", .fixed ["node"] []⟩),
  ("lladdr", ⟨"Lladdr", .fixed ["address"] []⟩),
  ("iproute", ⟨"Iproute", .fixed ["cmd"] []⟩),
  ("ifconfig", ⟨"Ifconfig", .fixed ["l", "rn"] []⟩),
  ("ifconfig-noexec", ⟨"IfconfigNoexec", .fixed [] []⟩),
  ("ifconfig-nowarn", ⟨"IfconfigNowarn", .fixed [] []⟩),
  ("route", ⟨"Route", .fixed ["network_or_ip"] ["netmask", "gateway", "metric"]⟩),
  ("route-gateway", ⟨"RouteGateway", .fixed ["gw_or_dhcp"] []⟩),
  ("route-metric", ⟨"RouteMetric", .fixed ["m"] []⟩),
  ("route-delay", ⟨"RouteDelay", .fixed [] ["n", "w"]⟩),
  ("route-up", ⟨"RouteUp", .fixed ["cmd"] []⟩),
  ("route-pre-down", ⟨"RoutePreDown", .fixed ["cmd"] []⟩),
  ("route-noexec", ⟨"RouteNoexec", .fixed [] []⟩)]

def directiveTableChunk2 : List (String × DirectiveSpec) := [
  ("route-nopull", ⟨"RouteNopull", .fixed [] []⟩),
  ("allow-pull-fqdn", ⟨"AllowPullFqdn", .fixed [] []⟩),
  ("client-nat", ⟨"ClientNat", .fixed ["snat_or_dnat", "network", "netmask", "alias"] []⟩),
  ("redirect-gateway", ⟨"RedirectGateway", .varargs "flags"⟩),
  ("link-mtu", ⟨"LinkMtu", .fixed ["n"] []⟩),
  ("redirect-private", ⟨"RedirectPrivate", .optionalVarargs "flags"⟩),
  ("tun-mtu", ⟨"TunMtu", .fixed ["n"] []⟩),
  ("tun-mtu-extra", ⟨"TunMtuExtra", .fixed ["n"] []⟩),
  ("mtu-disc", ⟨"MtuDisc", .fixed ["mtu_disc_type"] []⟩),
  ("mtu-test", ⟨"MtuTest", .fixed [] []⟩),
  ("fragment", ⟨"Fragment", .fixed ["max"] []⟩),
  ("mssfix", ⟨"Mssfix", .fixed ["max"] []⟩),
  ("sndbuf", ⟨"Sndbuf", .fixed ["size"] []⟩),
  ("rcvbuf", ⟨"Rcvbuf", .fixed ["size"] []⟩),
  ("mark", ⟨"Mark", .fixed ["value"] []⟩),
  ("socket-flags", ⟨"SocketFlags", .varargs "flags"⟩),
  ("txqueuelen", ⟨"Txqueuelen", .fixed ["n"] []⟩),
  ("shaper", ⟨"Shaper", .fixed ["n"] []⟩),
  ("inactive", ⟨"Inactive", .fixed ["n"] ["bytes"]⟩),
  ("ping", ⟨"Ping", .fixed ["n"] []⟩),
  ("ping-exit", ⟨"PingExit", .fixed ["n"] []⟩),
  ("ping-restart", ⟨"PingRestart", .fixed ["n"] []⟩),
  ("keepalive", ⟨"Keepalive", .fixed ["interval", "timeout"] []⟩),
  ("ping-timer-rem", ⟨"PingTimerRem", .fixed [] []⟩),
  ("persist-tun", ⟨"PersistTun", .fixed [] []⟩),
  ("persist-key", ⟨"PersistKey", .fixed [] []⟩),
  ("persist-local-ip", ⟨"PersistLocalIp", .fixed [] []⟩),
  ("persist-remote-ip", ⟨"PersistRemoteIp", .fixed [] []⟩),
  ("mlock", ⟨"Mlock", .fixed [] []⟩),
  ("up", ⟨"Up", .fixed ["cmd"] []⟩),
  ("up-delay", ⟨"UpDelay", .fixed [] []⟩),
  ("down", ⟨"Down", .fixed ["cmd"] []⟩),
  ("down-pre", ⟨"DownPre", .fixed [] []⟩),
  ("up-restart", ⟨"UpRestart", .fixed [] []⟩),
  ("setenv", ⟨"Setenv", .fixed ["name", "value"] []⟩),
  ("setenv-safe", ⟨"SetenvSafe", .fixed ["name", "value"] []⟩),
  ("ignore-unknown-option", ⟨"IgnoreUnknownOption", .varargs "opts"⟩),
  ("script-security", ⟨"ScriptSecurity", .fixed ["level"] []⟩),
  ("disable-occ", ⟨"DisableOcc", .fixed [] []⟩),
  ("user", ⟨"User", .fixed ["user"] []⟩)]

def directiveTableChunk3 : List (String × DirectiveSpec) := [
  ("group", ⟨"Group", .fixed ["group"] []⟩),
  ("cd", ⟨"Cd", .fixed ["dir"] []⟩),
  ("chroot", ⟨"Chroot", .fixed ["dir"] []⟩),
  ("setcon", ⟨"Setcon", .fixed ["context"] []⟩),
  ("daemon", ⟨"Daemon", .fixed [] ["progname"]⟩),
  ("syslog", ⟨"Syslog", .fixed [] ["progname"]⟩),
  ("errors-to-stderr", ⟨"ErrorsToStderr", .fixed [] []⟩),
  ("passtos", ⟨"Passtos", .fixed [] []⟩),
  ("inetd", ⟨"Inetd", .fixed [] ["wait_or_nowait", "progname"]⟩),
  ("log", ⟨"Log", .fixed ["file"] []⟩),
  ("log-append", ⟨"LogAppend", .fixed ["file"] []⟩),
  ("suppress-timestamps", ⟨"SuppressTimestamps", .fixed [] []⟩),
  ("machine-readable-output", ⟨"MachineReadableOutput", .fixed [] []⟩),
  ("writepid", ⟨"Writepid", .fixed ["file"] []⟩),
  ("nice", ⟨"Nice", .fixed ["n"] []⟩),
  ("fast-io", ⟨"FastIo", .fixed [] []⟩),
  ("multihome", ⟨"Multihome", .fixed [] []⟩),
  ("echo", ⟨"Echo", .optionalVarargs "parms"⟩),
  ("remap-usr1", ⟨"RemapUsr1", .fixed ["signal"] []⟩),
  ("verb", ⟨"Verb", .fixed ["n"] []⟩),
  ("status", ⟨"Status", .fixed ["file"] ["n"]⟩),
  ("status-version", ⟨"StatusVersion", .fixed [] ["n"]⟩),
  ("mute", ⟨"Mute", .fixed ["n"] []⟩),
  ("compress", ⟨"Compress", .fixed [] ["algorithm"]⟩),
  ("comp-lzo", ⟨"CompLzo", .fixed [] ["mode"]⟩),
  ("comp-noadapt", ⟨"CompNoadapt", .fixed [] []⟩),
  ("management", ⟨"Management", .fixed ["ip", "port"] ["pw_file"]⟩),
  ("management-client", ⟨"ManagementClient", .fixed [] []⟩),
  ("management-query-passwords", ⟨"ManagementQueryPasswords", .fixed [] []⟩),
  ("management-query-proxy", ⟨"ManagementQueryProxy", .fixed [] []⟩),
  ("management-query-remote", ⟨"ManagementQueryRemote", .fixed [] []⟩),
  ("management-external-key", ⟨"ManagementExternalKey", .fixed [] []⟩),
  ("management-external-cert", ⟨"ManagementExternalCert", .fixed ["certificate_hint"] []⟩),
  ("management-forget-disconnect", ⟨"ManagementForgetDisconnect", .fixed [] []⟩),
  ("management-hold", ⟨"ManagementHold", .fixed [] []⟩),
  ("management-signal", ⟨"ManagementSignal", .fixed [] []⟩),
  ("management-log-cache", ⟨"ManagementLogCache", .fixed ["n"] []⟩),
  ("management-up-down", ⟨"ManagementUpDown", .fixed [] []⟩),
  ("management-client-auth", ⟨"ManagementClientAuth", .fixed [] []⟩),
  ("management-client-pf", ⟨"ManagementClientPf", .fixed [] []⟩)]

def directiveTableChunk4 : List (String × DirectiveSpec) := [
  ("management-client-user", ⟨"ManagementClientUser", .fixed ["u"] []⟩),
  ("management-client-group", ⟨"ManagementClientGroup", .fixed ["g"] []⟩),
  ("plugin", ⟨"Plugin", .fixed ["module_pathname"] ["init_string"]⟩),
  ("keying-material-exporter", ⟨"KeyingMaterialExporter", .fixed ["label", "len"] []⟩),
  ("server", ⟨"Server", .fixed ["network", "netmask"] ["nopool"]⟩),
  ("push", ⟨"Push", .fixed ["option"] []⟩),
  ("push-reset", ⟨"PushReset", .fixed [] []⟩),
  ("push-remove", ⟨"PushRemove", .fixed ["opt"] []⟩),
  ("push-peer-info", ⟨"PushPeerInfo", .fixed [] []⟩),
  ("disable", ⟨"Disable", .fixed [] []⟩),
  ("ifconfig-pool", ⟨"IfconfigPool", .fixed ["start_ip", "end_ip"] ["netmask"]⟩),
  ("ifconfig-pool-persist", ⟨"IfconfigPoolPersist", .fixed ["file"] ["seconds"]⟩),
  ("ifconfig-pool-linear", ⟨"IfconfigPoolLinear", .fixed [] []⟩),
  ("ifconfig-push", ⟨"IfconfigPush", .fixed ["local", "remote_netmask"] ["alias"]⟩),
  ("iroute", ⟨"Iroute", .fixed ["network"] ["netmask"]⟩),
  ("client-to-client", ⟨"ClientToClient", .fixed [] []⟩),
  ("duplicate-cn", ⟨"DuplicateCn", .fixed [] []⟩),
  ("client-connect", ⟨"ClientConnect", .fixed ["cmd"] []⟩),
  ("client-disconnect", ⟨"ClientDisconnect", .fixed ["cmd"] []⟩),
  ("client-config-dir", ⟨"ClientConfigDir", .fixed ["dir"] []⟩),
  ("ccd-exclusive", ⟨"CcdExclusive", .fixed [] []⟩),
  ("tmp-dir", ⟨"TmpDir", .fixed ["dir"] []⟩),
  ("hash-size", ⟨"HashSize", .fixed ["r", "v"] []⟩),
  ("bcast-buffers", ⟨"BcastBuffers", .fixed ["n"] []⟩),
  ("tcp-queue-limit", ⟨"TcpQueueLimit", .fixed ["n"] []⟩),
  ("tcp-nodelay", ⟨"TcpNodelay", .fixed [] []⟩),
  ("max-clients", ⟨"MaxClients", .fixed ["n"] []⟩),
  ("max-routes-per-client", ⟨"MaxRoutesPerClient", .fixed ["n"] []⟩),
  ("stale-routes-check", ⟨"StaleRoutesCheck", .fixed ["n"] ["t"]⟩),
  ("connect-freq", ⟨"ConnectFreq", .fixed ["n", "sec"] []⟩),
  ("learn-address", ⟨"LearnAddress", .fixed ["cmd"] []⟩),
  ("auth-user-pass-verify", ⟨"AuthUserPassVerify", .fixed ["cmd", "method"] []⟩),
  ("auth-gen-token", ⟨"AuthGenToken", .fixed [] ["lifetime"]⟩),
  ("opt-verify", ⟨"OptVerify", .fixed [] []⟩),
  ("auth-user-pass-optional", ⟨"AuthUserPassOptional", .fixed [] []⟩),
  ("client-cert-not-required", ⟨"ClientCertNotRequired", .fixed [] []⟩),
  ("verify-client-cert", ⟨"VerifyClientCert", .fixed ["none_optional_require"] []⟩),
  ("username-as-common-name", ⟨"UsernameAsCommonName", .fixed [] []⟩),
  ("compat-names", ⟨"CompatNames", .fixed [] ["no_remapping"]⟩),
  ("no-name-remapping", ⟨"NoNameRemapping", .fixed [] []⟩)]

def directiveTableChunk5 : List (String × DirectiveSpec) := [
  ("port-share", ⟨"PortShare", .fixed ["host", "port"] ["dir"]⟩),
  ("client", ⟨"Client", .fixed [] []⟩),
  ("pull", ⟨"Pull", .fixed [] []⟩),
  ("pull-filter", ⟨"PullFilter", .fixed ["accept_or_ignore_or_reject", "text"] []⟩),
  ("auth-user-pass", ⟨"AuthUserPass", .fixed [] ["up"]⟩),
  ("auth-retry", ⟨"AuthRetry", .fixed ["auth_retry_type"] []⟩),
  ("static-challenge", ⟨"StaticChallenge", .fixed ["t", "e"] []⟩),
  ("server-poll-timeout", ⟨"ServerPollTimeout", .fixed ["n"] []⟩),
  ("connect-timeout", ⟨"ConnectTimeout", .fixed ["n"] []⟩),
  ("explicit-exit-notify", ⟨"ExplicitExitNotify", .fixed [] ["n"]⟩),
  ("allow-recursive-routing", ⟨"AllowRecursiveRouting", .fixed [] []⟩),
  ("secret", ⟨"Secret", .inlineFile ["direction"]⟩),
  ("key-direction", ⟨"KeyDirection", .fixed ["direction"] []⟩),
  ("auth", ⟨"Auth", .fixed ["alg"] []⟩),
  ("cipher", ⟨"Cipher", .fixed ["alg"] []⟩),
  ("ncp-ciphers", ⟨"NcpCiphers", .fixed ["cipher_list"] []⟩),
  ("ncp-disable", ⟨"NcpDisable", .fixed [] []⟩),
  ("keysize", ⟨"Keysize", .fixed ["n"] []⟩),
  ("prng", ⟨"Prng", .fixed ["alg"] ["nsl"]⟩),
  ("engine", ⟨"Engine", .fixed [] ["engine_name"]⟩),
  ("no-replay", ⟨"NoReplay", .fixed [] []⟩),
  ("replay-window", ⟨"ReplayWindow", .fixed ["n"] ["t"]⟩),
  ("mute-replay-warnings", ⟨"MuteReplayWarnings", .fixed [] []⟩),
  ("replay-persist", ⟨"ReplayPersist", .fixed ["file"] []⟩),
  ("no-iv", ⟨"NoIv", .fixed [] []⟩),
  ("use-prediction-resistance", ⟨"UsePredictionResistance", .fixed [] []⟩),
  ("test-crypto", ⟨"TestCrypto", .fixed [] []⟩),
  ("tls-auth", ⟨"TlsAuth", .inlineFile ["direction"]⟩),
  ("tls-server", ⟨"TlsServer", .fixed [] []⟩),
  ("tls-client", ⟨"TlsClient", .fixed [] []⟩),
  ("ca", ⟨"Ca", .inlineFile []⟩),
  ("capath", ⟨"Capath", .fixed ["dir"] []⟩),
  ("dh", ⟨"Dh", .inlineFile []⟩),
  ("ecdh-curve", ⟨"EcdhCurve", .fixed ["name"] []⟩),
  ("cert", ⟨"Cert", .inlineFile []⟩),
  ("extra-certs", ⟨"ExtraCerts", .inlineFile []⟩),
  ("key", ⟨"Key", .inlineFile []⟩),
  ("tls-version-min", ⟨"TlsVersionMin", .fixed ["version"] ["or_highest"]⟩),
  ("tls-version-max", ⟨"TlsVersionMax", .fixed ["version"] []⟩),
  ("pkcs12", ⟨"Pkcs12", .inlineFile []⟩)]

def directiveTableChunk6 : List (String × DirectiveSpec) := [
  ("verify-hash", ⟨"VerifyHash", .fixed ["hash"] []⟩),
  ("pkcs11-cert-private", ⟨"Pkcs11CertPrivate", .varargs "providers"⟩),
  ("pkcs11-id", ⟨"Pkcs11Id", .fixed ["name"] []⟩),
  ("pkcs11-id-management", ⟨"Pkcs11IdManagement", .fixed [] []⟩),
  ("pkcs11-pin-cache", ⟨"Pkcs11PinCache", .fixed ["seconds"] []⟩),
  ("pkcs11-protected-authentication", ⟨"Pkcs11ProtectedAuthentication", .varargs "providers"⟩),
  ("pkcs11-providers", ⟨"Pkcs11Providers", .varargs "providers"⟩),
  ("pkcs11-private-mode", ⟨"Pkcs11PrivateMode", .varargs "modes"⟩),
  ("cryptoapicert", ⟨"Cryptoapicert", .fixed ["select_string"] []⟩),
  ("key-method", ⟨"KeyMethod", .fixed ["m"] []⟩),
  ("tls-cipher", ⟨"TlsCipher", .fixed ["l"] []⟩),
  ("tls-timeout", ⟨"TlsTimeout", .fixed ["n"] []⟩),
  ("reneg-bytes", ⟨"RenegBytes", .fixed ["n"] []⟩),
  ("reneg-pkts", ⟨"RenegPkts", .fixed ["n"] []⟩),
  ("reneg-sec", ⟨"RenegSec", .fixed ["n"] []⟩),
  ("hand-window", ⟨"HandWindow", .fixed ["n"] []⟩),
  ("tran-window", ⟨"TranWindow", .fixed ["n"] []⟩),
  ("single-session", ⟨"SingleSession", .fixed [] []⟩),
  ("tls-exit", ⟨"TlsExit", .fixed [] []⟩),
  ("tls-crypt", ⟨"TlsCrypt", .inlineFile []⟩),
  ("askpass", ⟨"Askpass", .fixed [] ["file"]⟩),
  ("auth-nocache", ⟨"AuthNocache", .fixed [] []⟩),
  ("auth-token", ⟨"AuthToken", .fixed ["token"] []⟩),
  ("tls-verify", ⟨"TlsVerify", .fixed ["cmd"] []⟩),
  ("tls-export-cert", ⟨"TlsExportCert", .fixed ["directory"] []⟩),
  ("x509-username-field", ⟨"X509UsernameField", .fixed ["fieldname"] []⟩),
  ("verify-x509-name", ⟨"VerifyX509Name", .fixed ["name", "verify_x509_name_type"] []⟩),
  ("x509-track", ⟨"X509Track", .fixed ["attribute"] []⟩),
  ("ns-cert-type", ⟨"NsCertType", .fixed ["client_or_server"] []⟩),
  ("remote-cert-ku", ⟨"RemoteCertKu", .varargs "values"⟩),
  ("remote-cert-eku", ⟨"RemoteCertEku", .fixed ["oid"] []⟩),
  ("remote-cert-tls", ⟨"RemoteCertTls", .fixed ["client_or_server"] []⟩),
  ("crl-verify", ⟨"CrlVerify", .inlineFile ["direction"]⟩),
  ("show-ciphers", ⟨"ShowCiphers", .fixed [] []⟩),
  ("show-digests", ⟨"ShowDigests", .fixed [] []⟩),
  ("show-tls", ⟨"ShowTls", .fixed [] []⟩),
  ("show-engines", ⟨"ShowEngines", .fixed [] []⟩),
  ("show-curves", ⟨"ShowCurves", .fixed [] []⟩),
  ("genkey", ⟨"Genkey", .fixed [] []⟩),
  ("mktun", ⟨"Mktun", .fixed [] []⟩)]

def directiveTableChunk7 : List (String × DirectiveSpec) := [
  ("rmtun", ⟨"Rmtun", .fixed [] []⟩),
  ("win-sys", ⟨"WinSys", .fixed ["path"] []⟩),
  ("ip-win32", ⟨"IpWin32", .fixed ["method"] []⟩),
  ("route-method", ⟨"RouteMethod", .fixed ["m"] []⟩),
  ("dhcp-option", ⟨"DhcpOption", .fixed ["dhcp_option_type"] ["parm"]⟩),
  ("tap-sleep", ⟨"TapSleep", .fixed ["n"] []⟩),
  ("show-net-up", ⟨"ShowNetUp", .fixed [] []⟩),
  ("block-outside-dns", ⟨"BlockOutsideDns", .fixed [] []⟩),
  ("dhcp-renew", ⟨"DhcpRenew", .fixed [] []⟩),
  ("dhcp-release", ⟨"DhcpRelease", .fixed [] []⟩),
  ("register-dns", ⟨"RegisterDns", .fixed [] []⟩),
  ("pause-exit", ⟨"PauseExit", .fixed [] []⟩),
  ("service", ⟨"Service", .fixed ["exit_event"] ["initial_state_of_event"]⟩),
  ("show-adapters", ⟨"ShowAdapters", .fixed [] []⟩),
  ("allow-nonadmin", ⟨"AllowNonadmin", .fixed [] ["tap_adapter"]⟩),
  ("show-valid-subnets", ⟨"ShowValidSubnets", .fixed [] []⟩),
  ("show-net", ⟨"ShowNet", .fixed [] []⟩),
  ("show-pkcs11-ids", ⟨"ShowPkcs11Ids", .fixed [] ["provider", "cert_private"]⟩),
  ("show-gateway", ⟨"ShowGateway", .fixed [] ["v6target"]⟩),
  ("ifconfig-ipv6", ⟨"IfconfigIpv6", .fixed ["ipv6addr", "ipv6remote"] []⟩),
  ("route-ipv6", ⟨"RouteIpv6", .fixed ["ipv6addr"] ["gateway", "metric"]⟩),
  ("server-ipv6", ⟨"ServerIpv6", .fixed ["ipv6addr"] []⟩),
  ("ifconfig-ipv6-pool", ⟨"IfconfigIpv6Pool", .fixed ["ipv6addr"] []⟩),
  ("ifconfig-ipv6-push", ⟨"IfconfigIpv6Push", .fixed ["ipv6addr", "ipv6remote"] []⟩),
  ("iroute-ipv6", ⟨"IrouteIpv6", .fixed ["ipv6addr"] []⟩)]

def directiveTable : List (String × DirectiveSpec) := directiveTableChunk1 ++ directiveTableChunk2 ++ directiveTableChunk3 ++ directiveTableChunk4 ++ directiveTableChunk5 ++ directiveTableChunk6 ++ directiveTableChunk7

/-- The body of one generated `parse_line` match arm, by macro rule:
fixed-arity (including the no-argument special case), varargs, optional
varargs, and the two inline-file rules (without/with optional args). -/
def dispatch_entry (spec : DirectiveSpec) (args : List String) : LineParseResult :=
  match spec.shape with
  | .fixed req opt =>
      if args.length < req.length then .NotEnoughArguments
      else .Success (.fixedArgs spec.rust_name (args.take req.length)
        ((List.range opt.length).map fun i => args.get? (req.length + i)))
  | .varargs _ =>
      if args.length = 0 then .NotEnoughArguments
      else .Success (.varargs spec.rust_name args)
  | .optionalVarargs _ =>
      if args.length > 0 then .Success (.optionalVarargs spec.rust_name (some args))
      else .Success (.optionalVarargs spec.rust_name none)
  | .inlineFile opt =>
      match args with
      | [] => .NotEnoughArguments
      | a0 :: _ =>
          .Success (.inlineFile spec.rust_name (.FilePath a0)
            ((List.range opt.length).map fun i => args.get? (1 + i)))

/-- The hand-written "server-bridge" match arm of `parse_line`
(src/config_directive.rs lines 54-65): one argument equal to "nogw",
exactly four positional arguments, or `NotEnoughArguments`. -/
def server_bridge_arm (args : List String) : LineParseResult :=
  match args with
  | [a0] =>
      if a0 = "nogw" then .Success (.ServerBridge .NoGateway)
      else .NotEnoughArguments
  | [g, n, ps, pe] => .Success (.ServerBridge (.GatewayConfig g n ps pe))
  | _ => .NotEnoughArguments

/-- `parse_line` from src/config_directive.rs: the generated match tries
every table row in order (first match wins; embedding this as an
association-list lookup), then the "server-bridge" arm, then the wildcard
returning `NoMatchingCommand`. -/
def parse_line (command : String) (args : List String) : LineParseResult :=
  match directiveTable.lookup command with
  | some spec => dispatch_entry spec args
  | none =>
      if command = "server-bridge" then server_bridge_arm args
      else .NoMatchingCommand

/-- Rust `str::split_whitespace` over a character list: maximal runs of
non-whitespace characters, with all whitespace discarded — i.e. split at
every whitespace character and drop the empty pieces. -/
def splitWsL (l : List Char) : List (List Char) :=
  (l.splitOnP Char.isWhitespace).filter (fun t => !t.isEmpty)

/-- Rust `str::trim` over a character list: leading and trailing
whitespace removed. -/
def trimL (l : List Char) : List Char :=
  ((l.dropWhile Char.isWhitespace).reverse.dropWhile Char.isWhitespace).reverse

/-- The skip guard of `parse` (src/lib.rs line 271):
`line.trim().starts_with('#') || line.trim().is_empty()`. -/
def line_is_skipped (line : String) : Bool :=
  (trimL line.data).head? == some '#' || (trimL line.data).isEmpty

/-- `COMMENT_REGEX.replace(&line, "")` with `COMMENT_REGEX = #.*$`: the
leftmost match runs from the first '#' to the end of the line, so the
replacement keeps exactly the characters before the first '#'. -/
def strip_comments (line : String) : String :=
  String.mk (line.data.takeWhile (fun c => c != '#'))

/-- `line_without_comments.split_whitespace().collect()`. -/
def split_whitespace (line : String) : List String :=
  (splitWsL line.data).map String.mk

/-- The capture group of `(\S+)>` matched immediately after a marker
prefix, with the leftmost-first (Perl-style greedy) semantics of the Rust
regex crate: the group is the longest nonempty run of non-whitespace
characters that is followed by a '>'.  Equivalently, with `m` the maximal
non-whitespace run at the start of the input, the group ends at the last
'>' inside `m`, which must not be the first character. -/
def angle_capture (l : List Char) : Option (List Char) :=
  let m := l.takeWhile (fun c => !c.isWhitespace)
  match m.reverse.findIdx? (fun c => c == '>') with
  | some j =>
      let k := m.length - 1 - j
      if 1 ≤ k then some (m.take k) else none
  | none => none

/-- `INLINE_START_REGEX.captures(&line)` with pattern `^<(\S+)>`. -/
def inline_start_capture (line : String) : Option String :=
  match line.data with
  | c :: rest => if c = '<' then (angle_capture rest).map String.mk else none
  | [] => none

/-- `INLINE_END_REGEX.captures(line)` with pattern `^</(\S+)>`. -/
def inline_end_capture (line : String) : Option String :=
  match line.data with
  | c :: c2 :: rest =>
      if c = '<' ∧ c2 = '/' then (angle_capture rest).map String.mk else none
  | _ => none

/-- Split a character stream at each newline byte; the chunk after the
last newline (the final, unterminated fragment) is also produced, so the
result is always nonempty. -/
def splitNlL : List Char → List (List Char)
  | [] => [[]]
  | c :: cs =>
      if c = '\n' then [] :: splitNlL cs
      else
        match splitNlL cs with
        | [] => [[c]]
        | l :: ls => (c :: l) :: ls

/-- Strip one trailing carriage return, as `BufRead::lines` does for a
line terminated by CRLF. -/
def rstripCr (l : List Char) : List Char :=
  match l.getLast? with
  | some '\r' => l.dropLast
  | _ => l

/-- The line sequence `BufReader::new(input).lines()` yields for a given
input text: split at '\n', strip a '\r' preceding each '\n', and keep a
final fragment only if it is nonempty (input ending in '\n' produces no
trailing empty line). -/
def lines_of (s : String) : List String :=
  match (splitNlL s.data).reverse with
  | [] => []
  | lastChunk :: revRest =>
      ((revRest.reverse.map rstripCr) ++
        (if lastChunk = [] then [] else [lastChunk])).map String.mk

/-- `Vec::join("\n")` as used by `InlineFileParseState::to_config_line`. -/
def join_lines : List String → String
  | [] => ""
  | [l] => l
  | l :: ls => l ++ "\n" ++ join_lines ls

/-- Rust `usize as i32` (the cast applied at `line_no as i32`,
src/lib.rs lines 203 and 281-287): keep the low 32 bits and reinterpret
them in two's complement, so line indices from 2^31 upward wrap to
negative numbers. -/
def i32_cast (n : Nat) : Int :=
  if n % 2 ^ 32 < 2 ^ 31 then ((n % 2 ^ 32 : Nat) : Int)
  else ((n % 2 ^ 32 : Nat) : Int) - 2 ^ 32

/-- `ConfigLine<T>` from src/lib.rs; `number` is an `i32` in the source,
modelled as an `Int` always produced through `i32_cast`. -/
structure ConfigLine (T : Type) : Type where
  number : Int
  result : T
  deriving DecidableEq

/-- `ParseWarning` from src/lib.rs. -/
inductive ParseWarning : Type
  | NotEnoughArguments
  | NoMatchingCommand
  deriving DecidableEq

/-- `ParsedConfigFile` from src/lib.rs. -/
structure ParsedConfigFile : Type where
  success_lines : List (ConfigLine ConfigDirective)
  warning_lines : List (ConfigLine ParseWarning)
  deriving DecidableEq

/-- The member set of the `INLINE_FILE_OPTIONS` lazy static `HashSet`
(src/lib.rs lines 148-163; "ca" is inserted twice there). -/
def INLINE_FILE_OPTIONS : List String :=
  ["ca", "cert", "extra-certs", "dh", "key", "pkcs12", "crl-verify",
   "http-proxy-user-pass", "tls-auth", "tls-crypt", "secret"]

/-- `InlineFileParseState` from src/lib.rs; `start_line_no` is an `i32`
in the source, set by `InlineFileParseState::new` as `line_no as i32`
(the source's second `as i32` in `to_config_line` is the identity on a
value that is already an `i32`). -/
structure InlineFileParseState : Type where
  start_line_no : Int
  identifier : String
  lines : List String
  deriving DecidableEq

/-- `InlineFileParseState::is_completed_by_line`: the line matches the end
marker pattern and its capture equals the open block's identifier. -/
def is_completed_by_line (ps : InlineFileParseState) (line : String) : Bool :=
  match inline_end_capture line with
  | some captured => captured == ps.identifier
  | none => false

/-- `InlineFileParseState::to_config_line`.  The source's `unreachable!()`
wildcard arm (reached only for an identifier outside
`INLINE_FILE_OPTIONS`, which never happens) is modelled as `none`. -/
def to_config_line (ps : InlineFileParseState) : Option (ConfigLine ConfigDirective) :=
  let file := File.InlineFileContents (join_lines ps.lines)
  let directive : Option ConfigDirective :=
    match ps.identifier with
    | "ca" => some (.inlineFile "Ca" file [])
    | "cert" => some (.inlineFile "Cert" file [])
    | "extra-certs" => some (.inlineFile "ExtraCerts" file [])
    | "dh" => some (.inlineFile "Dh" file [])
    | "key" => some (.inlineFile "Key" file [])
    | "pkcs12" => some (.inlineFile "Pkcs12" file [])
    | "crl-verify" => some (.inlineFile "CrlVerify" file [none])
    | "http-proxy-user-pass" => some (.inlineFile "HttpProxyUserPass" file [])
    | "tls-auth" => some (.inlineFile "TlsAuth" file [none])
    | "tls-crypt" => some (.inlineFile "TlsCrypt" file [])
    | "secret" => some (.inlineFile "Secret" file [none])
    | _ => none
  directive.map fun d => ⟨ps.start_line_no, d⟩

/-- The mutable state of the `parse` loop: the two output vectors and the
optional open inline block. -/
structure ParseSt : Type where
  success_lines : List (ConfigLine ConfigDirective)
  warning_lines : List (ConfigLine ParseWarning)
  inline_file_parse_state : Option InlineFileParseState
  deriving DecidableEq

/-- The tail of one `parse` loop iteration (src/lib.rs lines 271-289),
reached when no inline block is open and the line did not start one: skip
blank/comment lines, strip trailing comments, split into tokens, dispatch.
`none` models the `command_and_args[0]` panic on an empty token list. -/
def process_command (st : ParseSt) (line_no : Nat) (line : String) : Option ParseSt :=
  if line_is_skipped line then some st
  else
    match split_whitespace (strip_comments line) with
    | [] => none
    | command :: args =>
        match parse_line command args with
        | .NoMatchingCommand =>
            some { st with warning_lines :=
              st.warning_lines ++ [⟨i32_cast line_no, .NoMatchingCommand⟩] }
        | .NotEnoughArguments =>
            some { st with warning_lines :=
              st.warning_lines ++ [⟨i32_cast line_no, .NotEnoughArguments⟩] }
        | .Success directive =>
            some { st with success_lines :=
              st.success_lines ++ [⟨i32_cast line_no, directive⟩] }

/-- One full `parse` loop iteration (src/lib.rs lines 248-289): if a block
is open, the line either completes it (emit the accumulated directive) or
is appended verbatim; otherwise a start marker for an inline-capable
command opens a block, and any other line goes to `process_command`. -/
def process_line (st : ParseSt) (line_no : Nat) (line : String) : Option ParseSt :=
  match st.inline_file_parse_state with
  | some ps =>
      if is_completed_by_line ps line then
        match to_config_line ps with
        | some cl =>
            some { st with success_lines := st.success_lines ++ [cl],
                           inline_file_parse_state := none }
        | none => none
      else
        some { st with
          inline_file_parse_state := some { ps with lines := ps.lines ++ [line] } }
  | none =>
      match inline_start_capture line with
      | some captured =>
          if INLINE_FILE_OPTIONS.contains captured then
            some { st with
              inline_file_parse_state := some ⟨i32_cast line_no, captured, []⟩ }
          else process_command st line_no line
      | none => process_command st line_no line

/-- The `for (line_index, line_result) in buf_reader.lines().enumerate()`
loop, with `line_no = line_index` (0-based). -/
def run_lines : Nat → ParseSt → List String → Option ParseSt
  | _, st, [] => some st
  | n, st, line :: rest =>
      match process_line st n line with
      | some st' => run_lines (n + 1) st' rest
      | none => none

/-- `ovpnfile::parse` on an already-split line sequence.  The leftover
inline state (a block never closed) is dropped, exactly as the source's
final `Ok(ParsedConfigFile{..})` drops `inline_file_parse_state`. -/
def parse (input : List String) : Option ParsedConfigFile :=
  (run_lines 0 ⟨[], [], none⟩ input).map fun st =>
    ⟨st.success_lines, st.warning_lines⟩

/-- `ovpnfile::parse` on the raw input text. -/
def parse_str (s : String) : Option ParsedConfigFile :=
  parse (lines_of s)

/-- A `ConfigLine` sequence is in strictly ascending line-number order. -/
def ascending {T : Type} (l : List (ConfigLine T)) : Prop :=
  l.Pairwise fun a b => a.number < b.number

/-! ### Tokenizer lemmas -/

theorem splitWsL_eq_nil_iff (l : List Char) :
    splitWsL l = [] ↔ ∀ c ∈ l, c.isWhitespace := by
  induction l with
  | nil => simp [splitWsL]
  | cons c cs ih =>
      by_cases hc : c.isWhitespace
      · rw [splitWsL, List.splitOnP_cons, if_pos hc]
        simp only [List.filter_cons, List.isEmpty_nil, Bool.not_true,
          Bool.false_eq_true, if_false]
        rw [← splitWsL]
        simpa [hc] using ih
      · obtain ⟨h, t, hht⟩ := List.exists_cons_of_ne_nil
          (List.splitOnP_ne_nil Char.isWhitespace cs)
        rw [splitWsL, List.splitOnP_cons, if_neg hc, hht]
        simp [hc]

theorem splitWsL_cons_of_not_ws (c : Char) (cs : List Char)
    (hc : ¬ c.isWhitespace) :
    ∃ tok toks, splitWsL (c :: cs) = (c :: tok) :: toks := by
  obtain ⟨h, t, hht⟩ := List.exists_cons_of_ne_nil
    (List.splitOnP_ne_nil Char.isWhitespace cs)
  refine ⟨h, (t.filter fun x => !x.isEmpty), ?_⟩
  rw [splitWsL, List.splitOnP_cons, if_neg hc, hht]
  simp

theorem splitWsL_ws_prefix {w : List Char} (y : List Char)
    (hw : ∀ c ∈ w, c.isWhitespace) : splitWsL (w ++ y) = splitWsL y := by
  induction w with
  | nil => rfl
  | cons a w' ih =>
      have ha : a.isWhitespace := hw a (by simp)
      rw [List.cons_append, splitWsL, List.splitOnP_cons, if_pos ha]
      simp only [List.filter_cons, List.isEmpty_nil, Bool.not_true,
        Bool.false_eq_true, if_false]
      rw [← splitWsL]
      exact ih fun c hcw => hw c (by simp [hcw])

theorem takeWhile_append_all {p : Char → Bool} :
    ∀ {w : List Char} (y : List Char), (∀ x ∈ w, p x) →
      (w ++ y).takeWhile p = w ++ y.takeWhile p := by
  intro w
  induction w with
  | nil => intro y _; rfl
  | cons a w' ih =>
      intro y hw
      have ha : p a := hw a (by simp)
      have hw' : ∀ x ∈ w', p x := fun x hxw => hw x (by simp [hxw])
      rw [List.cons_append, List.takeWhile_cons_of_pos ha, ih y hw']
      rfl

theorem dropWhile_ws_append {w : List Char} (y : List Char)
    (hw : ∀ c ∈ w, c.isWhitespace) :
    (w ++ y).dropWhile Char.isWhitespace = y.dropWhile Char.isWhitespace := by
  induction w with
  | nil => rfl
  | cons a w' ih =>
      have ha : a.isWhitespace := hw a (by simp)
      rw [List.cons_append, List.dropWhile_cons_of_pos ha]
      exact ih fun c hcw => hw c (by simp [hcw])

/-! ### Trim lemmas -/

theorem trimL_eq_nil (l : List Char)
    (h : l.dropWhile Char.isWhitespace = []) : trimL l = [] := by
  rw [trimL, h]
  rfl

theorem dropWhile_append_singleton {p : Char → Bool} {c : Char}
    (hc : p c = false) :
    ∀ y : List Char, ∃ t, (y ++ [c]).dropWhile p = t ++ [c] := by
  intro y
  induction y with
  | nil => exact ⟨[], by simp [List.dropWhile_cons, hc]⟩
  | cons a y' ih =>
      by_cases ha : p a
      · simpa [List.cons_append, List.dropWhile_cons_of_pos ha] using ih
      · exact ⟨a :: y', by
          rw [List.cons_append, List.dropWhile_cons_of_neg (by simp [ha])]⟩

theorem trimL_head {l : List Char} {c : Char} {r : List Char}
    (h : l.dropWhile Char.isWhitespace = c :: r) :
    (trimL l).head? = some c ∧ ¬ c.isWhitespace := by
  have hc : Char.isWhitespace c = false := by
    have hd := List.head?_dropWhile_not Char.isWhitespace l
    rw [h] at hd
    simpa using hd
  constructor
  · rw [trimL, h]
    obtain ⟨t, ht⟩ := dropWhile_append_singleton hc r.reverse
    rw [List.reverse_cons, ht, List.reverse_append]
    rfl
  · simp [hc]

/-! ### Skip-guard and token-list lemmas -/

theorem not_skipped_of_tokens {line : String} {command : String}
    {args : List String}
    (h : split_whitespace (strip_comments line) = command :: args) :
    line_is_skipped line = false := by
  rw [line_is_skipped]
  have hsplit : splitWsL (line.data.takeWhile (fun c => c != '#')) ≠ [] := by
    intro hnil
    rw [split_whitespace, strip_comments] at h
    simp only [String.data] at h
    rw [hnil] at h
    simp at h
  by_cases hdrop : line.data.dropWhile Char.isWhitespace = []
  · exfalso
    apply hsplit
    rw [splitWsL_eq_nil_iff]
    intro c hc
    have hcl : c ∈ line.data :=
      (List.takeWhile_sublist (fun c => c != '#')).mem hc
    have : ∀ x ∈ line.data, x.isWhitespace := by
      rwa [← List.dropWhile_eq_nil_iff]
    exact this c hcl
  · obtain ⟨c, r, hcr⟩ := List.exists_cons_of_ne_nil hdrop
    obtain ⟨hhead, hcws⟩ := trimL_head hcr
    by_cases hhash : c = '#'
    · exfalso
      apply hsplit
      have hdecomp := List.takeWhile_append_dropWhile
        (p := Char.isWhitespace) (l := line.data)
      rw [hcr] at hdecomp
      have hwws : ∀ x ∈ line.data.takeWhile Char.isWhitespace, x.isWhitespace :=
        fun x hx => List.mem_takeWhile_imp hx
      have hwhash : ∀ x ∈ line.data.takeWhile Char.isWhitespace,
          (x != '#') = true := by
        intro x hx
        have hxws := hwws x hx
        simp only [bne_iff_ne, ne_eq]
        intro hxe
        rw [hxe] at hxws
        exact absurd hxws (by decide)
      rw [splitWsL_eq_nil_iff]
      intro x hx
      rw [← hdecomp, takeWhile_append_all (c :: r) hwhash,
        List.takeWhile_cons_of_neg (by simp [hhash]), List.append_nil] at hx
      exact hwws x hx
    · rw [hhead]
      have : (trimL line.data).isEmpty = false := by
        cases htl : trimL line.data with
        | nil => rw [htl] at hhead; simp at hhead
        | cons a b => rfl
      simp [this, Option.some.injEq, hhash]

theorem tokens_ne_nil_of_not_skipped {line : String}
    (h : line_is_skipped line = false) :
    split_whitespace (strip_comments line) ≠ [] := by
  rw [line_is_skipped, Bool.or_eq_false_iff] at h
  obtain ⟨hhash, hempty⟩ := h
  have hdrop : line.data.dropWhile Char.isWhitespace ≠ [] := by
    intro hnil
    rw [List.isEmpty_eq_false_iff_exists_mem] at hempty
    obtain ⟨x, hx⟩ := hempty
    rw [trimL_eq_nil line.data hnil] at hx
    simp at hx
  obtain ⟨c, r, hcr⟩ := List.exists_cons_of_ne_nil hdrop
  obtain ⟨hhead, hcws⟩ := trimL_head hcr
  have hchash : c ≠ '#' := by
    intro hceq
    rw [hceq] at hhead
    rw [hhead] at hhash
    simp at hhash
  have hdecomp := List.takeWhile_append_dropWhile
    (p := Char.isWhitespace) (l := line.data)
  rw [hcr] at hdecomp
  have hwws : ∀ x ∈ line.data.takeWhile Char.isWhitespace, x.isWhitespace :=
    fun x hx => List.mem_takeWhile_imp hx
  have hwhash : ∀ x ∈ line.data.takeWhile Char.isWhitespace,
      (x != '#') = true := by
    intro x hx
    have hxws := hwws x hx
    simp only [bne_iff_ne, ne_eq]
    intro hxe
    rw [hxe] at hxws
    exact absurd hxws (by decide)
  rw [split_whitespace, strip_comments]
  simp only [String.data, ne_eq, List.map_eq_nil_iff]
  rw [← hdecomp, takeWhile_append_all (c :: r) hwhash,
    List.takeWhile_cons_of_pos (by simp [hchash]),
    splitWsL_ws_prefix _ hwws]
  obtain ⟨tok, toks, htt⟩ :=
    splitWsL_cons_of_not_ws c (r.takeWhile fun x => x != '#') hcws
  rw [htt]
  simp

/-! ### Registry lookup lemmas -/

theorem lookup_mem_fst {l : List (String × DirectiveSpec)} {a : String}
    {b : DirectiveSpec} (h : l.lookup a = some b) : a ∈ l.map Prod.fst := by
  induction l with
  | nil => simp [List.lookup] at h
  | cons p rest ih =>
      obtain ⟨k, v⟩ := p
      rw [List.lookup] at h
      by_cases hk : a = k
      · subst hk
        simp
      · simp only [beq_false_of_ne hk] at h
        simpa using Or.inr (ih h)

theorem table_keys_no_angle :
    ∀ p ∈ directiveTable, p.1.data.head? ≠ some '<' := by decide

theorem lookup_none_head_angle {cmd : String}
    (hcmd : cmd.data.head? = some '<') :
    directiveTable.lookup cmd = none := by
  cases hlk : directiveTable.lookup cmd with
  | none => rfl
  | some spec =>
      exfalso
      obtain ⟨p, hp, hpe⟩ := List.mem_map.1 (lookup_mem_fst hlk)
      exact table_keys_no_angle p hp (by rw [hpe, hcmd])

theorem parse_line_of_lookup {cmd : String} {spec : DirectiveSpec}
    (args : List String) (h : directiveTable.lookup cmd = some spec) :
    parse_line cmd args = dispatch_entry spec args := by
  simp only [parse_line, h]

theorem parse_line_angle {cmd : String} (args : List String)
    (hcmd : cmd.data.head? = some '<') :
    parse_line cmd args = .NoMatchingCommand := by
  simp only [parse_line, lookup_none_head_angle hcmd]
  rw [if_neg]
  intro hsb
  rw [hsb] at hcmd
  exact absurd hcmd (by decide)

/-! ### Marker and line-classification lemmas -/

theorem head_angle_of_capture {line : String} {id : String}
    (h : inline_start_capture line = some id) :
    line.data.head? = some '<' := by
  cases hd : line.data with
  | nil => simp only [inline_start_capture, hd] at h; exact absurd h (by simp)
  | cons c rest =>
      simp only [inline_start_capture, hd] at h
      by_cases hc : c = '<'
      · simp [hc]
      · rw [if_neg hc] at h
        exact absurd h (by simp)

theorem line_data_of_head_angle {line : String}
    (h : line.data.head? = some '<') :
    ∃ rest, line.data = '<' :: rest := by
  cases hd : line.data with
  | nil => rw [hd] at h; exact absurd h (by simp)
  | cons c rest =>
      rw [hd] at h
      simp only [List.head?_cons, Option.some.injEq] at h
      exact ⟨rest, by rw [h]⟩

theorem not_skipped_of_head_angle {line : String}
    (h : line.data.head? = some '<') : line_is_skipped line = false := by
  obtain ⟨rest, hd⟩ := line_data_of_head_angle h
  have hdrop : line.data.dropWhile Char.isWhitespace = '<' :: rest := by
    rw [hd, List.dropWhile_cons_of_neg (by decide)]
  obtain ⟨hhead, _⟩ := trimL_head hdrop
  have hne : (trimL line.data).isEmpty = false := by
    cases htl : trimL line.data with
    | nil => rw [htl] at hhead; exact absurd hhead (by simp)
    | cons a b => rfl
  rw [line_is_skipped, hhead, hne]
  decide

theorem tokens_of_head_angle {line : String}
    (h : line.data.head? = some '<') :
    ∃ tokc toks, split_whitespace (strip_comments line) =
      String.mk ('<' :: tokc) :: toks := by
  obtain ⟨rest, hd⟩ := line_data_of_head_angle h
  rw [split_whitespace, strip_comments]
  simp only [String.data]
  rw [hd, List.takeWhile_cons_of_pos (by decide)]
  obtain ⟨tok, toks, htt⟩ :=
    splitWsL_cons_of_not_ws '<' (rest.takeWhile fun x => x != '#') (by decide)
  rw [htt]
  exact ⟨tok, _, rfl⟩

theorem is_completed_iff (ps : InlineFileParseState) (line : String) :
    is_completed_by_line ps line = true ↔
      inline_end_capture line = some ps.identifier := by
  rw [is_completed_by_line]
  cases hcap : inline_end_capture line with
  | none => simp
  | some c => simp [hcap, beq_iff_eq]

theorem is_completed_identifier (ps ps' : InlineFileParseState) (line : String)
    (h : ps.identifier = ps'.identifier) :
    is_completed_by_line ps line = is_completed_by_line ps' line := by
  rw [is_completed_by_line, is_completed_by_line, h]

theorem to_config_line_of_mem {ps : InlineFileParseState}
    (h : ps.identifier ∈ INLINE_FILE_OPTIONS) :
    ∃ d, to_config_line ps = some ⟨ps.start_line_no, d⟩ := by
  simp only [INLINE_FILE_OPTIONS, List.mem_cons, List.not_mem_nil,
    or_false] at h
  rcases h with h | h | h | h | h | h | h | h | h | h | h <;>
    simp [to_config_line, h]

/-! ### Driver step lemmas -/

theorem process_command_cases (st : ParseSt) (n : Nat) (line : String) :
    process_command st n line = some st ∨
    (∃ w, process_command st n line =
      some { st with warning_lines :=
        st.warning_lines ++ [⟨i32_cast n, w⟩] }) ∨
    (∃ d, process_command st n line =
      some { st with success_lines :=
        st.success_lines ++ [⟨i32_cast n, d⟩] }) := by
  by_cases hskip : line_is_skipped line
  · exact Or.inl (by rw [process_command, if_pos hskip])
  · have hskipf : line_is_skipped line = false := by simpa using hskip
    have hne := tokens_ne_nil_of_not_skipped hskipf
    cases htoks : split_whitespace (strip_comments line) with
    | nil => exact absurd htoks hne
    | cons command args =>
        cases hpl : parse_line command args with
        | NoMatchingCommand =>
            refine Or.inr (Or.inl ⟨.NoMatchingCommand, ?_⟩)
            simp [process_command, hskipf, htoks, hpl]
        | NotEnoughArguments =>
            refine Or.inr (Or.inl ⟨.NotEnoughArguments, ?_⟩)
            simp [process_command, hskipf, htoks, hpl]
        | Success d =>
            refine Or.inr (Or.inr ⟨d, ?_⟩)
            simp [process_command, hskipf, htoks, hpl]

/-! ### Claim C1 -/

/-- Claim C1, counterexample: parsing the input
"resolv-retry 10\nremote somehost someport\nunknown-command\n" does not
yield success lines numbered 1 and 2 with a warning line numbered 3 as the
claim states, because `parse` numbers lines from 0
(src/lib.rs lines 244-245: `let line_no = line_index` over `enumerate()`). -/
theorem claim1_counterexample :
    parse_str "resolv-retry 10\nremote somehost someport\nunknown-command\n" ≠
      some ⟨[⟨1, .fixedArgs "ResolvRetry" ["10"] []⟩,
             ⟨2, .fixedArgs "Remote" ["somehost"] [some "someport", none]⟩],
            [⟨3, .NoMatchingCommand⟩]⟩ := by decide

/-- Claim C1, amended: parsing the input
"resolv-retry 10\nremote somehost someport\nunknown-command\n" yields
success lines numbered 0 and 1 carrying ResolvRetry with n = "10" and
Remote with host = "somehost", port = Some "someport", proto = None, and a
warning line numbered 2 carrying NoMatchingCommand; the three lines are
numbered 0, 1, 2 (0-based). -/
theorem claim1_amended :
    parse_str "resolv-retry 10\nremote somehost someport\nunknown-command\n" =
      some ⟨[⟨0, .fixedArgs "ResolvRetry" ["10"] []⟩,
             ⟨1, .fixedArgs "Remote" ["somehost"] [some "someport", none]⟩],
            [⟨2, .NoMatchingCommand⟩]⟩ := by decide

/-! ### Claim C2 -/

/-- Claim C2 names the inline-capable set and asserts each of its members
is a registered command with the inline-file shape.  The code breaks this
for "http-proxy-user-pass": the dispatcher rejects it as an unknown
command (with one argument and with zero arguments alike), because
src/config_directive.rs line 285 registers the `HttpProxyUserPass` variant
under the misspelled command string "http-proxy-user-type", which does
accept a token as a `File::FilePath`.  The remaining ten members of the
set behave exactly as the claim states: one token parses to their variant
with `File::FilePath` of that token, and zero tokens fail with
`NotEnoughArguments`. -/
theorem claim2_code_divergence :
    parse_line "http-proxy-user-pass" ["userpass.txt"] = .NoMatchingCommand ∧
    parse_line "http-proxy-user-pass" [] = .NoMatchingCommand ∧
    parse_line "http-proxy-user-type" ["userpass.txt"] =
      .Success (.inlineFile "HttpProxyUserPass" (.FilePath "userpass.txt") []) ∧
    "http-proxy-user-pass" ∈ INLINE_FILE_OPTIONS ∧
    ((["ca", "cert", "extra-certs", "dh", "key", "pkcs12", "crl-verify",
       "tls-auth", "tls-crypt", "secret"].all fun name =>
        (match parse_line name ["somefile"] with
         | .Success (.inlineFile _ (.FilePath p) _) => p == "somefile"
         | _ => false) &&
        (parse_line name [] == .NotEnoughArguments)) = true) := by decide

/-! ### Claim C3 -/

/-- Claim C3, counterexample: the four-line input whose lines are
the tls-auth start marker, "line1", "line2" and the end marker does not
produce a success line numbered 1: `parse` numbers lines from 0, so the
start-marker line is line 0 and the emitted directive carries number 0. -/
theorem claim3_counterexample :
    parse ["<tls-auth>", "line1", "line2", "</tls-auth>"] ≠
      some ⟨[⟨1, .inlineFile "TlsAuth"
        (.InlineFileContents "line1\nline2") [none]⟩], []⟩ := by decide

/-- Claim C3, amended: parsing the input whose lines are the tls-auth
start marker, "line1", "line2" and the end marker yields exactly one
success line, whose number is 0 — the 0-based index of the start-marker
line — and whose directive is TlsAuth with file
InlineFileContents "line1\nline2" and direction None; the marker lines
are excluded from the contents. -/
theorem claim3_amended :
    parse ["<tls-auth>", "line1", "line2", "</tls-auth>"] =
      some ⟨[⟨0, .inlineFile "TlsAuth"
        (.InlineFileContents "line1\nline2") [none]⟩], []⟩ := by decide

/-! ### Claim C4 -/

/-- Claim C4: dispatching "server-bridge" with the single token "nogw"
yields Success(ServerBridge(NoGateway)); with exactly four tokens it
yields Success(ServerBridge(GatewayConfig)) filled positionally; and any
other argument list produces a warning result (NotEnoughArguments), never
a Directive. -/
theorem claim4_server_bridge :
    parse_line "server-bridge" ["nogw"] =
      .Success (.ServerBridge .NoGateway) ∧
    (∀ g n ps pe : String, parse_line "server-bridge" [g, n, ps, pe] =
      .Success (.ServerBridge (.GatewayConfig g n ps pe))) ∧
    (∀ args : List String, args ≠ ["nogw"] → args.length ≠ 4 →
      parse_line "server-bridge" args = .NotEnoughArguments) := by
  have hlk : directiveTable.lookup "server-bridge" = none := by decide
  refine ⟨by decide, ?_, ?_⟩
  · intro g n ps pe
    simp [parse_line, hlk, server_bridge_arm]
  · intro args hnogw hlen
    have hsb : parse_line "server-bridge" args = server_bridge_arm args := by
      simp [parse_line, hlk]
    rw [hsb]
    match args with
    | [] => rfl
    | [a0] =>
        rw [server_bridge_arm]
        rw [if_neg]
        intro ha
        exact hnogw (by rw [ha])
    | [a, b] => rfl
    | [a, b, c] => rfl
    | [a, b, c, d] => exact absurd rfl hlen
    | a :: b :: c :: d :: e :: rest => rfl

/-- Claim C4, witness: the theorem applied to the concrete gateway
argument list and to the concrete one-token list ["somegw"]. -/
theorem claim4_witness :
    parse_line "server-bridge"
      ["10.0.0.1", "255.255.255.0", "10.0.0.100", "10.0.0.200"] =
      .Success (.ServerBridge (.GatewayConfig "10.0.0.1" "255.255.255.0"
        "10.0.0.100" "10.0.0.200")) ∧
    (["somegw"] : List String) ≠ ["nogw"] ∧
    (["somegw"] : List String).length ≠ 4 ∧
    parse_line "server-bridge" ["somegw"] = .NotEnoughArguments :=
  ⟨claim4_server_bridge.2.1 "10.0.0.1" "255.255.255.0" "10.0.0.100"
     "10.0.0.200",
   by decide, by decide,
   claim4_server_bridge.2.2 ["somegw"] (by decide) (by decide)⟩

/-! ### Claim C5 -/

/-- Claim C5: for every registered fixed-arity command (N required
argument names `req`, M optional argument names `opt`) and every token
list of length K with N ≤ K ≤ N + M, dispatch succeeds; the variant's
required fields are tokens[0..N) in order; and optional field i is
Some(tokens[N+i]) when N + i < K, and absent (None, not an empty string)
otherwise. -/
theorem claim5_fixed_arity_success (cmd rname : String)
    (req opt : List String) (toks : List String)
    (hlk : directiveTable.lookup cmd = some ⟨rname, .fixed req opt⟩)
    (hmin : req.length ≤ toks.length)
    (hmax : toks.length ≤ req.length + opt.length) :
    ∃ optv : List (Option String),
      parse_line cmd toks =
        .Success (.fixedArgs rname (toks.take req.length) optv) ∧
      optv.length = opt.length ∧
      ∀ i, i < opt.length →
        optv.get? i = some (if h : req.length + i < toks.length
                            then some (toks.get ⟨req.length + i, h⟩)
                            else none) := by
  refine ⟨(List.range opt.length).map fun i => toks.get? (req.length + i),
    ?_, by simp, ?_⟩
  · rw [parse_line_of_lookup toks hlk, dispatch_entry]
    simp only [if_neg (Nat.not_lt.2 hmin)]
  · intro i hi
    have hmap : ((List.range opt.length).map
        fun j => toks.get? (req.length + j)).get? i
          = some (toks.get? (req.length + i)) := by
      simp [hi]
    rw [hmap]
    by_cases h : req.length + i < toks.length
    · rw [dif_pos h, List.get?_eq_get h]
    · rw [dif_neg h, List.get?_eq_none.2 (Nat.not_lt.1 h)]

/-- Claim C5, witness: the theorem applied to the "remote" command (one
required argument "host", two optional arguments "port" and "proto") with
the two tokens ["somehost", "someport"]. -/
theorem claim5_witness :
    directiveTable.lookup "remote" =
      some ⟨"Remote", .fixed ["host"] ["port", "proto"]⟩ ∧
    (∃ optv : List (Option String),
      parse_line "remote" ["somehost", "someport"] =
        .Success (.fixedArgs "Remote"
          ((["somehost", "someport"] : List String).take 1) optv) ∧
      optv.length = 2 ∧
      ∀ i, i < 2 →
        optv.get? i = some (if h : 1 + i <
              (["somehost", "someport"] : List String).length
            then some ((["somehost", "someport"] : List String).get ⟨1 + i, h⟩)
            else none)) :=
  ⟨by decide,
   claim5_fixed_arity_success "remote" "Remote" ["host"] ["port", "proto"]
     ["somehost", "someport"] (by decide) (by decide) (by decide)⟩

/-! ### Claim C6 -/

/-- Claim C6: for every registered fixed-arity command with required
argument names `req`, dispatching it with fewer tokens than `req.length`
returns `NotEnoughArguments`, and driving such a line through the parse
loop (with no inline block open) appends exactly one NotEnoughArguments
warning tagged with that line's number and leaves `success_lines`
unchanged. -/
theorem claim6_not_enough_arguments (st : ParseSt) (line_no : Nat)
    (line cmd rname : String) (req opt : List String) (toks : List String)
    (hst : st.inline_file_parse_state = none)
    (htoks : split_whitespace (strip_comments line) = cmd :: toks)
    (hlk : directiveTable.lookup cmd = some ⟨rname, .fixed req opt⟩)
    (hlen : toks.length < req.length) :
    parse_line cmd toks = .NotEnoughArguments ∧
    process_line st line_no line =
      some { st with warning_lines :=
        st.warning_lines ++ [⟨i32_cast line_no, .NotEnoughArguments⟩] } := by
  have hpl : parse_line cmd toks = .NotEnoughArguments := by
    rw [parse_line_of_lookup toks hlk, dispatch_entry]
    simp only [if_pos hlen]
  refine ⟨hpl, ?_⟩
  have hskipf : line_is_skipped line = false := not_skipped_of_tokens htoks
  have hpc : process_command st line_no line =
      some { st with warning_lines :=
        st.warning_lines ++ [⟨i32_cast line_no, .NotEnoughArguments⟩] } := by
    simp [process_command, hskipf, htoks, hpl]
  rw [hst] at hpc
  simp only [process_line, hst]
  cases hcap : inline_start_capture line with
  | none => exact hpc
  | some id =>
      exfalso
      have hhead := head_angle_of_capture hcap
      obtain ⟨tokc, toks2, ht2⟩ := tokens_of_head_angle hhead
      rw [htoks] at ht2
      have hcmdeq : cmd = String.mk ('<' :: tokc) := by
        injection ht2 with h1 _
      have hcmdhead : cmd.data.head? = some '<' := by rw [hcmdeq]; rfl
      rw [lookup_none_head_angle hcmdhead] at hlk
      exact absurd hlk (by simp)

/-- Claim C6, witness: the theorem applied to the line "remote" (command
"remote", zero tokens, one required argument) at line number 7 with the
empty initial state. -/
theorem claim6_witness :
    split_whitespace (strip_comments "remote") = "remote" :: [] ∧
    directiveTable.lookup "remote" =
      some ⟨"Remote", .fixed ["host"] ["port", "proto"]⟩ ∧
    ([] : List String).length < (["host"] : List String).length ∧
    (parse_line "remote" [] = .NotEnoughArguments ∧
     process_line ⟨[], [], none⟩ 7 "remote" =
       some ⟨[], [⟨7, .NotEnoughArguments⟩], none⟩) :=
  ⟨by decide, by decide, by decide,
   claim6_not_enough_arguments ⟨[], [], none⟩ 7 "remote" "remote" "Remote"
     ["host"] ["port", "proto"] [] rfl (by decide) (by decide) (by decide)⟩

/-! ### Claim C10 -/

/-- Claim C10, counterexample: the line "<foo>bar" matches the
start-marker pattern with identifier "foo", which is not inline-capable,
but the command token handed to dispatch is the whole token "<foo>bar",
not the literal "<foo>" (= "<" ++ identifier ++ ">") asserted by the
claim. -/
theorem claim10_counterexample :
    inline_start_capture "<foo>bar" = some "foo" ∧
    "foo" ∉ INLINE_FILE_OPTIONS ∧
    split_whitespace (strip_comments "<foo>bar") = ["<foo>bar"] ∧
    ("<foo>bar" : String) ≠ "<" ++ "foo" ++ ">" := by decide

/-- Claim C10, amended: when no inline block is open, a line matching the
start-marker pattern whose identifier is not in the inline-capable set
does not open a block; it falls through to command parsing with the first
whitespace token of the comment-stripped line as the command name — a
token beginning with '<' (it equals "<identifier>" only when the line is
exactly the marker) — and, since no registered command starts with '<',
produces exactly one NoMatchingCommand warning for that line. -/
theorem claim10_amended (st : ParseSt) (n : Nat) (line id : String)
    (hst : st.inline_file_parse_state = none)
    (hcap : inline_start_capture line = some id)
    (hmem : id ∉ INLINE_FILE_OPTIONS) :
    (∃ cmd toks, split_whitespace (strip_comments line) = cmd :: toks ∧
      cmd.data.head? = some '<' ∧
      parse_line cmd toks = .NoMatchingCommand) ∧
    process_line st n line =
      some { st with warning_lines :=
        st.warning_lines ++ [⟨i32_cast n, .NoMatchingCommand⟩] } := by
  have hhead := head_angle_of_capture hcap
  obtain ⟨tokc, toks, ht⟩ := tokens_of_head_angle hhead
  have hcmdhead : (String.mk ('<' :: tokc)).data.head? = some '<' := rfl
  have hpl := parse_line_angle toks hcmdhead
  have hskipf : line_is_skipped line = false := not_skipped_of_head_angle hhead
  have hpc : process_command st n line =
      some { st with warning_lines :=
        st.warning_lines ++ [⟨i32_cast n, .NoMatchingCommand⟩] } := by
    simp [process_command, hskipf, ht, hpl]
  refine ⟨⟨_, _, ht, hcmdhead, hpl⟩, ?_⟩
  rw [hst] at hpc
  simp only [process_line, hst, hcap]
  have hcont : INLINE_FILE_OPTIONS.contains id = false := by
    by_cases hb : INLINE_FILE_OPTIONS.contains id
    · exact absurd (List.mem_of_elem_eq_true hb) hmem
    · simpa using hb
  rw [hcont]
  simpa using hpc

/-- Claim C10, witness: the amended theorem applied to the line
"<foo>bar" at line number 4 with the empty initial state. -/
theorem claim10_witness :
    (∃ cmd toks,
      split_whitespace (strip_comments "<foo>bar") = cmd :: toks ∧
      cmd.data.head? = some '<' ∧
      parse_line cmd toks = .NoMatchingCommand) ∧
    process_line ⟨[], [], none⟩ 4 "<foo>bar" =
      some ⟨[], [⟨4, .NoMatchingCommand⟩], none⟩ :=
  claim10_amended ⟨[], [], none⟩ 4 "<foo>bar" "foo" rfl (by decide)
    (by decide)

/-! ### Claim C9 -/

/-- Invariant maintained by the parse loop: whenever an inline block is
open, its identifier is one of the inline-capable command names (only the
start-marker branch opens a block, after checking membership). -/
def InlineInv (st : ParseSt) : Prop :=
  ∀ ps, st.inline_file_parse_state = some ps →
    ps.identifier ∈ INLINE_FILE_OPTIONS

theorem process_command_some_inline (st : ParseSt) (n : Nat) (line : String)
    (st' : ParseSt) (h' : process_command st n line = some st') :
    st'.inline_file_parse_state = st.inline_file_parse_state := by
  rcases process_command_cases st n line with h | ⟨w, h⟩ | ⟨d, h⟩ <;>
    rw [h] at h' <;> simp only [Option.some.injEq] at h' <;> rw [← h']

theorem process_line_total (st : ParseSt) (n : Nat) (line : String)
    (hinv : InlineInv st) :
    ∃ st', process_line st n line = some st' ∧ InlineInv st' := by
  cases hst : st.inline_file_parse_state with
  | some ps =>
      by_cases hcomp : is_completed_by_line ps line
      · obtain ⟨d, hd⟩ := to_config_line_of_mem (hinv ps hst)
        refine ⟨_, by simp only [process_line, hst, hcomp, if_true, hd]; rfl, ?_⟩
        intro ps' h
        simp at h
      · refine ⟨{ st with inline_file_parse_state := some { ps with lines := ps.lines ++ [line] } }, ?_, ?_⟩
        · simp only [process_line, hst]
          rw [if_neg hcomp]
        · intro ps' h
          simp only [Option.some.injEq] at h
          rw [← h]
          exact hinv ps hst
  | none =>
      have hfall : ∀ st', process_command st n line = some st' →
          InlineInv st' := by
        intro st' h' ps' hps'
        rw [process_command_some_inline st n line st' h', hst] at hps'
        exact absurd hps' (by simp)
      have hpc : ∃ st', process_command st n line = some st' := by
        rcases process_command_cases st n line with h | ⟨w, h⟩ | ⟨d, h⟩ <;>
          exact ⟨_, h⟩
      obtain ⟨stc, hstc⟩ := hpc
      cases hcap : inline_start_capture line with
      | some id =>
          by_cases hmem : INLINE_FILE_OPTIONS.contains id
          · refine ⟨_, by simp only [process_line, hst, hcap, hmem, if_true]; rfl, ?_⟩
            intro ps' h
            simp only [Option.some.injEq] at h
            rw [← h]
            exact List.mem_of_elem_eq_true hmem
          · refine ⟨stc, ?_, hfall stc hstc⟩
            simp only [process_line, hst, hcap]
            rw [if_neg hmem]
            exact hstc
      | none =>
          refine ⟨stc, ?_, hfall stc hstc⟩
          simp only [process_line, hst, hcap]
          exact hstc

theorem run_lines_total :
    ∀ (input : List String) (n : Nat) (st : ParseSt), InlineInv st →
      (run_lines n st input).isSome := by
  intro input
  induction input with
  | nil => intro n st _; simp [run_lines]
  | cons line rest ih =>
      intro n st hinv
      obtain ⟨st', hst', hinv'⟩ := process_line_total st n line hinv
      simp only [run_lines, hst']
      exact ih (n + 1) st' hinv'

/-- Claim C9: parse is total on the non-I/O path.  In the embedding a
`none` result models a Rust panic — the `command_and_args[0]` index on an
empty token slice or the `unreachable!()` arm of `to_config_line`; no
input line list can produce one, because every line that reaches command
dispatch splits into at least one token (its trimmed form is non-empty and
does not start with '#'), every inline block that is closed was opened
with an inline-capable identifier, and every argument index used in
`parse_line` (including the server-bridge arm) sits behind a length
check, which the embedding realizes by total pattern matching. -/
theorem claim9_parse_total (input : List String) : (parse input).isSome := by
  have h := run_lines_total input 0 ⟨[], [], none⟩ (by intro ps hps; simp at hps)
  cases hr : run_lines 0 ⟨[], [], none⟩ input with
  | none => rw [hr] at h; simp at h
  | some st => simp [parse, hr]

/-! ### Claim C7 -/

theorem run_lines_append (xs ys : List String) :
    ∀ (n : Nat) (st : ParseSt),
      run_lines n st (xs ++ ys) =
        (run_lines n st xs).bind fun st' =>
          run_lines (n + xs.length) st' ys := by
  induction xs with
  | nil =>
      intro n st
      simp [run_lines]
  | cons line rest ih =>
      intro n st
      rw [List.cons_append]
      cases hpl : process_line st n line with
      | none => simp [run_lines, hpl]
      | some st' =>
          simp only [run_lines, hpl, Option.some_bind]
          rw [ih (n + 1) st']
          have harith : n + 1 + rest.length = n + (rest.length + 1) := by omega
          rw [List.length_cons, ← harith]

theorem run_lines_open_block (id : String) :
    ∀ (rest : List String) (n : Nat)
      (succ : List (ConfigLine ConfigDirective))
      (warn : List (ConfigLine ParseWarning)) (start : Int)
      (lns : List String),
      (∀ l ∈ rest, inline_end_capture l ≠ some id) →
      run_lines n ⟨succ, warn, some ⟨start, id, lns⟩⟩ rest =
        some ⟨succ, warn, some ⟨start, id, lns ++ rest⟩⟩ := by
  intro rest
  induction rest with
  | nil => intro n succ warn start lns _; simp [run_lines]
  | cons l rest' ih =>
      intro n succ warn start lns hno
      have hncomp : is_completed_by_line ⟨start, id, lns⟩ l = false := by
        rw [is_completed_by_line]
        cases hcap : inline_end_capture l with
        | none => rfl
        | some c =>
            have hcne : c ≠ id := by
              intro hc
              exact hno l (by simp) (by rw [hcap, hc])
            simp [hcne]
      simp only [run_lines, process_line, hncomp, Bool.false_eq_true,
        if_false]
      rw [ih (n + 1) succ warn start (lns ++ [l])
        (fun l' hl' => hno l' (by simp [hl']))]
      simp

/-- Claim C7: if the end of input is reached while an inline block is
still open (a start marker for an inline-capable identifier was seen and
no later line matches its end marker), the accumulated block is silently
discarded: parse still returns a successful ParsedConfigFile, and it is
exactly the ParsedConfigFile of the input up to the start marker — no
Directive and no warning is emitted for the unterminated block or any of
its lines. -/
theorem claim7_unterminated_block_dropped
    (pre : List String) (stf : ParseSt) (marker : String) (id : String)
    (rest : List String)
    (hpre : run_lines 0 ⟨[], [], none⟩ pre = some stf)
    (hnone : stf.inline_file_parse_state = none)
    (hcap : inline_start_capture marker = some id)
    (hmem : id ∈ INLINE_FILE_OPTIONS)
    (hrest : ∀ l ∈ rest, inline_end_capture l ≠ some id) :
    parse (pre ++ marker :: rest) = parse pre ∧ (parse pre).isSome := by
  have hparse_pre : parse pre =
      some ⟨stf.success_lines, stf.warning_lines⟩ := by
    simp [parse, hpre]
  have hcont : INLINE_FILE_OPTIONS.contains id = true :=
    List.elem_eq_true_of_mem hmem
  have hopen : process_line stf pre.length marker =
      some ⟨stf.success_lines, stf.warning_lines,
            some ⟨i32_cast pre.length, id, []⟩⟩ := by
    simp only [process_line, hnone, hcap, hcont, if_true]
  have hrun : run_lines 0 ⟨[], [], none⟩ (pre ++ marker :: rest) =
      some ⟨stf.success_lines, stf.warning_lines,
            some ⟨i32_cast pre.length, id, rest⟩⟩ := by
    rw [run_lines_append pre (marker :: rest) 0 ⟨[], [], none⟩, hpre,
      Option.some_bind]
    simp only [Nat.zero_add]
    simp only [run_lines, hopen]
    have := run_lines_open_block id rest (pre.length + 1)
      stf.success_lines stf.warning_lines (i32_cast pre.length) [] hrest
    simpa using this
  refine ⟨?_, by rw [hparse_pre]; rfl⟩
  rw [parse, hrun, hparse_pre]
  rfl

/-- Claim C7, witness: the theorem applied to an empty prefix, the "<ca>"
start marker and one accumulated line that never sees a "</ca>" end
marker. -/
theorem claim7_witness :
    parse ([] ++ "<ca>" :: ["unclosed content"]) = parse [] ∧
    (parse ([] : List String)).isSome :=
  claim7_unterminated_block_dropped [] ⟨[], [], none⟩ "<ca>" "ca"
    ["unclosed content"] rfl rfl (by decide) (by decide) (by decide)

/-! ### Claim C8 -/

theorem i32_cast_small {n : Nat} (h : n < 2 ^ 31) : i32_cast n = (n : Int) := by
  have h32 : n < 2 ^ 32 := lt_trans h (by norm_num)
  rw [i32_cast, if_pos (by rw [Nat.mod_eq_of_lt h32]; exact h),
    Nat.mod_eq_of_lt h32]

theorem i32_cast_lt {i j : Nat} (hij : i < j) (hj : j < 2 ^ 31) :
    i32_cast i < i32_cast j := by
  rw [i32_cast_small (lt_trans hij hj), i32_cast_small hj]
  exact_mod_cast hij

/-- Invariant maintained by the parse loop at line index `n`: both output
sequences are strictly ascending, every recorded number is the `i32` cast
of some line index below `n`, and an open inline block started at the
cast of an index below `n`, with every recorded success number the cast
of an earlier index. -/
def StInv (n : Nat) (st : ParseSt) : Prop :=
  ascending st.success_lines ∧ ascending st.warning_lines ∧
  (∀ x ∈ st.success_lines, ∃ i, i < n ∧ x.number = i32_cast i) ∧
  (∀ x ∈ st.warning_lines, ∃ i, i < n ∧ x.number = i32_cast i) ∧
  (∀ ps, st.inline_file_parse_state = some ps →
    ∃ j, j < n ∧ ps.start_line_no = i32_cast j ∧
      ∀ x ∈ st.success_lines, ∃ i, i < j ∧ x.number = i32_cast i)

theorem ascending_append_one {T : Type} {l : List (ConfigLine T)}
    {x : ConfigLine T} (hl : ascending l)
    (hx : ∀ y ∈ l, y.number < x.number) : ascending (l ++ [x]) := by
  rw [ascending, List.pairwise_append]
  refine ⟨hl, List.pairwise_singleton _ _, ?_⟩
  intro a ha b hb
  rw [List.mem_singleton] at hb
  rw [hb]
  exact hx a ha

theorem to_config_line_number {ps : InlineFileParseState}
    {cl : ConfigLine ConfigDirective} (h : to_config_line ps = some cl) :
    cl.number = ps.start_line_no := by
  simp only [to_config_line] at h
  obtain ⟨d, _, hfd⟩ := Option.map_eq_some'.1 h
  rw [← hfd]

theorem process_command_StInv (st : ParseSt) (n : Nat) (line : String)
    (st' : ParseSt) (hn : n < 2 ^ 31) (hinv : StInv n st)
    (hstnone : st.inline_file_parse_state = none)
    (h : process_command st n line = some st') : StInv (n + 1) st' := by
  obtain ⟨hsa, hwa, hsb, hwb, _⟩ := hinv
  have hsb' : ∀ x ∈ st.success_lines, ∃ i, i < n + 1 ∧ x.number = i32_cast i :=
    fun x hx => by
      obtain ⟨i, hi, he⟩ := hsb x hx
      exact ⟨i, Nat.lt_succ_of_lt hi, he⟩
  have hwb' : ∀ x ∈ st.warning_lines, ∃ i, i < n + 1 ∧ x.number = i32_cast i :=
    fun x hx => by
      obtain ⟨i, hi, he⟩ := hwb x hx
      exact ⟨i, Nat.lt_succ_of_lt hi, he⟩
  rcases process_command_cases st n line with hc | ⟨w, hc⟩ | ⟨d, hc⟩ <;>
    rw [hc] at h <;> simp only [Option.some.injEq] at h <;> rw [← h]
  · exact ⟨hsa, hwa, hsb', hwb', by
      intro ps hps
      rw [hstnone] at hps
      exact absurd hps (by simp)⟩
  · refine ⟨hsa, ?_, hsb', ?_, ?_⟩
    · refine ascending_append_one hwa ?_
      intro y hy
      obtain ⟨i, hi, he⟩ := hwb y hy
      rw [he]
      exact i32_cast_lt hi hn
    · intro x hx
      rcases List.mem_append.1 hx with hxl | hxr
      · exact hwb' x hxl
      · rw [List.mem_singleton] at hxr
        rw [hxr]
        exact ⟨n, Nat.lt_succ_self n, rfl⟩
    · intro ps hps
      rw [hstnone] at hps
      exact absurd hps (by simp)
  · refine ⟨?_, hwa, ?_, hwb', ?_⟩
    · refine ascending_append_one hsa ?_
      intro y hy
      obtain ⟨i, hi, he⟩ := hsb y hy
      rw [he]
      exact i32_cast_lt hi hn
    · intro x hx
      rcases List.mem_append.1 hx with hxl | hxr
      · exact hsb' x hxl
      · rw [List.mem_singleton] at hxr
        rw [hxr]
        exact ⟨n, Nat.lt_succ_self n, rfl⟩
    · intro ps hps
      rw [hstnone] at hps
      exact absurd hps (by simp)

theorem process_line_StInv (st : ParseSt) (n : Nat) (line : String)
    (st' : ParseSt) (hn : n < 2 ^ 31) (hinv : StInv n st)
    (h : process_line st n line = some st') : StInv (n + 1) st' := by
  obtain ⟨hsa, hwa, hsb, hwb, hps⟩ := hinv
  have hsb' : ∀ x ∈ st.success_lines, ∃ i, i < n + 1 ∧ x.number = i32_cast i :=
    fun x hx => by
      obtain ⟨i, hi, he⟩ := hsb x hx
      exact ⟨i, Nat.lt_succ_of_lt hi, he⟩
  have hwb' : ∀ x ∈ st.warning_lines, ∃ i, i < n + 1 ∧ x.number = i32_cast i :=
    fun x hx => by
      obtain ⟨i, hi, he⟩ := hwb x hx
      exact ⟨i, Nat.lt_succ_of_lt hi, he⟩
  cases hst : st.inline_file_parse_state with
  | some ps0 =>
      obtain ⟨j, hjn, hjcast, hsuclt⟩ := hps ps0 hst
      by_cases hcomp : is_completed_by_line ps0 line
      · simp only [process_line, hst, hcomp, if_true] at h
        cases htc : to_config_line ps0 with
        | none => rw [htc] at h; exact absurd h (by simp)
        | some cl =>
            rw [htc] at h
            simp only [Option.some.injEq] at h
            rw [← h]
            have hclnum : cl.number = i32_cast j := by
              rw [to_config_line_number htc, hjcast]
            refine ⟨?_, hwa, ?_, hwb', ?_⟩
            · refine ascending_append_one hsa ?_
              intro y hy
              obtain ⟨i, hij, he⟩ := hsuclt y hy
              rw [he, hclnum]
              exact i32_cast_lt hij (lt_trans hjn hn)
            · intro x hx
              rcases List.mem_append.1 hx with hxl | hxr
              · exact hsb' x hxl
              · rw [List.mem_singleton] at hxr
                rw [hxr]
                exact ⟨j, Nat.lt_succ_of_lt hjn, hclnum⟩
            · intro ps' hps'
              exact absurd hps' (by simp)
      · have hcompf : is_completed_by_line ps0 line = false := by
          simpa using hcomp
        simp only [process_line, hst, hcompf, Bool.false_eq_true,
          if_false, Option.some.injEq] at h
        rw [← h]
        refine ⟨hsa, hwa, hsb', hwb', ?_⟩
        intro ps' hps'
        simp only [Option.some.injEq] at hps'
        rw [← hps']
        exact ⟨j, Nat.lt_succ_of_lt hjn, hjcast, hsuclt⟩
  | none =>
      cases hcap : inline_start_capture line with
      | some id =>
          by_cases hmem : INLINE_FILE_OPTIONS.contains id
          · simp only [process_line, hst, hcap, hmem, if_true,
              Option.some.injEq] at h
            rw [← h]
            refine ⟨hsa, hwa, hsb', hwb', ?_⟩
            intro ps' hps'
            simp only [Option.some.injEq] at hps'
            rw [← hps']
            exact ⟨n, Nat.lt_succ_self n, rfl, hsb⟩
          · simp only [process_line, hst, hcap] at h
            rw [if_neg hmem] at h
            exact process_command_StInv st n line st' hn
              ⟨hsa, hwa, hsb, hwb, hps⟩ hst h
      | none =>
          simp only [process_line, hst, hcap] at h
          exact process_command_StInv st n line st' hn
            ⟨hsa, hwa, hsb, hwb, hps⟩ hst h

theorem run_lines_StInv :
    ∀ (input : List String) (n : Nat) (st : ParseSt),
      n + input.length ≤ 2 ^ 31 → StInv n st →
      ∀ stf, run_lines n st input = some stf →
        ascending stf.success_lines ∧ ascending stf.warning_lines := by
  intro input
  induction input with
  | nil =>
      intro n st _ hinv stf h
      simp only [run_lines, Option.some.injEq] at h
      rw [← h]
      exact ⟨hinv.1, hinv.2.1⟩
  | cons line rest ih =>
      intro n st hbound hinv stf h
      have hn : n < 2 ^ 31 := by
        simp only [List.length_cons] at hbound
        omega
      cases hpl : process_line st n line with
      | none => rw [run_lines, hpl] at h; exact absurd h (by simp)
      | some st' =>
          simp only [run_lines, hpl] at h
          have hbound' : n + 1 + rest.length ≤ 2 ^ 31 := by
            simp only [List.length_cons] at hbound
            omega
          exact ih (n + 1) st' hbound'
            (process_line_StInv st n line st' hn hinv hpl) stf h

theorem run_replicate_help :
    ∀ (k n : Nat) (succ : List (ConfigLine ConfigDirective))
      (warn : List (ConfigLine ParseWarning)),
      run_lines n ⟨succ, warn, none⟩ (List.replicate k "help") =
        some ⟨succ ++ (List.range' n k).map
                (fun i => ⟨i32_cast i, .fixedArgs "Help" [] []⟩),
              warn, none⟩ := by
  intro k
  induction k with
  | zero =>
      intro n succ warn
      simp [run_lines]
  | succ k ih =>
      intro n succ warn
      have hcap : inline_start_capture "help" = none := by decide
      have hskip : line_is_skipped "help" = false := by decide
      have htoks : split_whitespace (strip_comments "help") = ["help"] := by
        decide
      have hpl : parse_line "help" [] =
          .Success (.fixedArgs "Help" [] []) := by decide
      have hstep : process_line ⟨succ, warn, none⟩ n "help" =
          some ⟨succ ++ [⟨i32_cast n, .fixedArgs "Help" [] []⟩], warn, none⟩ := by
        simp [process_line, process_command, hcap, hskip, htoks, hpl]
      rw [List.replicate_succ]
      simp only [run_lines, hstep]
      rw [ih (n + 1)]
      rw [List.range'_succ]
      simp

/-- Claim C8, counterexample: the claim as stated — every ParsedConfigFile
returned by parse has its success_lines and warning_lines in ascending
line-number order — is false at the concrete input consisting of 2^31 + 1
copies of the line "help": ConfigLine.number is an `i32` filled by
`line_no as i32`, so the success line of index 2^31 wraps to the number
-2^31, below the number 2^31 - 1 of its predecessor. -/
theorem replicate_help_not_ascending (N p q : Nat)
    (hpN : p < N) (hqN : q < N) (hpq : p < q)
    (hC : ¬ i32_cast p < i32_cast q)
    (hall : ∀ res : ParsedConfigFile,
      parse (List.replicate N "help") = some res →
      ascending res.success_lines ∧ ascending res.warning_lines) :
    False := by
  have hrun := run_replicate_help N 0 [] []
  have hparse : parse (List.replicate N "help") =
      some ⟨(List.range N).map
        (fun i => ⟨i32_cast i, .fixedArgs "Help" [] []⟩), []⟩ := by
    unfold parse
    rw [hrun, List.range_eq_range']
    rfl
  obtain ⟨hasc0, _⟩ := hall _ hparse
  have hasc : ((List.range N).map
      (fun i => (⟨i32_cast i, .fixedArgs "Help" [] []⟩ :
        ConfigLine ConfigDirective))).Pairwise
      (fun a b => a.number < b.number) := hasc0
  rw [List.pairwise_iff_getElem] at hasc
  have hlen : ((List.range N).map
      (fun i => (⟨i32_cast i, .fixedArgs "Help" [] []⟩ :
        ConfigLine ConfigDirective))).length = N := by
    rw [List.length_map, List.length_range]
  have hpair := hasc p q (by rw [hlen]; exact hpN) (by rw [hlen]; exact hqN)
    hpq
  simp only [List.getElem_map, List.getElem_range] at hpair
  exact hC hpair

theorem claim8_counterexample :
    ¬ ∀ res : ParsedConfigFile,
        parse (List.replicate 2147483649 "help") = some res →
        ascending res.success_lines ∧ ascending res.warning_lines :=
  fun hall => replicate_help_not_ascending 2147483649 2147483647 2147483648
    (by omega) (by omega) (by omega) (by decide) hall

/-- Claim C8, amended: in every ParsedConfigFile returned by parse on an
input of at most 2^31 lines (so that the `line_no as i32` cast does not
wrap), the success_lines sequence and the warning_lines sequence are each
in (strictly) ascending line-number order — equivalently, encounter
order — including inline-file directives, which are tagged with their
block's start-marker line number even though they are appended only when
the end marker is reached. -/
theorem claim8_output_ordered (input : List String)
    (res : ParsedConfigFile) (hbound : input.length ≤ 2 ^ 31)
    (h : parse input = some res) :
    ascending res.success_lines ∧ ascending res.warning_lines := by
  rw [parse] at h
  cases hr : run_lines 0 ⟨[], [], none⟩ input with
  | none => rw [hr] at h; exact absurd h (by simp)
  | some stf =>
      rw [hr] at h
      simp only [Option.map_some', Option.some.injEq] at h
      have hinv0 : StInv 0 ⟨[], [], none⟩ := by
        refine ⟨by simp [ascending], by simp [ascending], by simp, by simp, ?_⟩
        intro ps hps
        exact absurd hps (by simp)
      obtain ⟨h1, h2⟩ := run_lines_StInv input 0 _ (by simpa using hbound)
        hinv0 stf hr
      rw [← h]
      exact ⟨h1, h2⟩

/-- Claim C8, witness: the theorem applied to a two-line input producing
one success line (number 0) and one warning line (number 1). -/
theorem claim8_witness :
    ascending ((⟨[⟨0, ConfigDirective.fixedArgs "Port" ["1194"] []⟩],
        [⟨1, ParseWarning.NoMatchingCommand⟩]⟩ :
      ParsedConfigFile)).success_lines ∧
    ascending ((⟨[⟨0, ConfigDirective.fixedArgs "Port" ["1194"] []⟩],
        [⟨1, ParseWarning.NoMatchingCommand⟩]⟩ :
      ParsedConfigFile)).warning_lines :=
  claim8_output_ordered ["port 1194", "nonsense"]
    ⟨[⟨0, ConfigDirective.fixedArgs "Port" ["1194"] []⟩],
     [⟨1, ParseWarning.NoMatchingCommand⟩]⟩ (by norm_num) (by decide)

end Ovpn
